import Mathlib

/-!
# go-ieproxy: proxy configuration snapshot, PAC scheme mapping and change watcher

A shallow embedding of `ieproxy_windows.go` and `pac_windows.go`.

* Go strings are Lean `String`s; the string helpers of Go's `strings` package are
  written over the character list of a string.  Every separator and prefix used by the
  code is ASCII, so splitting on bytes and splitting on characters coincide.
* `map[string]string` is an association list with at most one entry per key; an
  assignment `m[k] = v` overwrites the entry of `k` in place or appends a new one.
* Every OS call (WinHTTP, registry, events) is an input: the value it produced.
* Package level variables (`windowsProxyConf`, `once`, `detectCancel`, `cancelEvent`,
  `detectError`) are fields of explicit state records.
-/

namespace Ieproxy

/-! ## Go library helpers -/

/-- Go `strings.Split(s, sep)` for a one-character separator: the segments between the
occurrences of `sep`; the empty string splits into one empty segment. -/
def Split (sep : Char) : List Char → List (List Char)
  | [] => [[]]
  | c :: cs =>
    if c = sep then [] :: Split sep cs
    else
      match Split sep cs with
      | [] => [[c]]
      | seg :: rest => (c :: seg) :: rest

/-- Go `strings.SplitN(s, sep, 2)` for a one-character separator: the whole string when
`sep` does not occur, otherwise the text before the first `sep` and the text after it. -/
def SplitN2 (sep : Char) (s : List Char) : List (List Char) :=
  match s.dropWhile (fun c => c ≠ sep) with
  | [] => [s]
  | _ :: after => [s.takeWhile (fun c => c ≠ sep), after]

/-- Go `unicode.IsSpace`: the white space characters that `strings.TrimSpace` removes. -/
def isSpace (c : Char) : Bool :=
  let n := c.toNat
  (9 ≤ n && n ≤ 13) || n == 0x20 || n == 0x85 || n == 0xA0 || n == 0x1680
    || (0x2000 ≤ n && n ≤ 0x200A) || n == 0x2028 || n == 0x2029 || n == 0x202F
    || n == 0x205F || n == 0x3000

/-- Go `strings.TrimSpace`: leading and trailing white space removed. -/
def TrimSpace (s : List Char) : List Char :=
  ((s.dropWhile isSpace).reverse.dropWhile isSpace).reverse

/-- Go `strings.Replace(s, old, new, -1)` for one-character `old` and `new`. -/
def Replace (old new : Char) : List Char → List Char
  | [] => []
  | c :: cs => if c = old then new :: Replace old new cs else c :: Replace old new cs

/-- Go `strings.HasPrefix`. -/
def HasPrefix (s p : String) : Bool := p.data.isPrefixOf s.data

/-- Go `strings.TrimPrefix`: `s` without the leading `p` when it has it, else `s`. -/
def TrimPrefix (s p : String) : String :=
  if HasPrefix s p then ⟨s.data.drop p.data.length⟩ else s

/-- Go assignment `m[k] = v` on a `map[string]string`. -/
def mapSet : List (String × String) → String → String → List (String × String)
  | [], k, v => [(k, v)]
  | (k', v') :: rest, k, v =>
    if k' = k then (k, v) :: rest else (k', v') :: mapSet rest k v

/-- Go lookup `m[k]` with the presence flag, on a `map[string]string`. -/
def mapGet : List (String × String) → String → Option String
  | [], _ => none
  | (k', v') :: rest, k => if k' = k then some v' else mapGet rest k

/-- Go `StringFromUTF16Ptr`: the decoded text of a native buffer, the empty string for a
null pointer.  A buffer is modelled by its decoded text, a null pointer by `none`. -/
def StringFromUTF16Ptr (p : Option String) : String := p.getD ""

/-! ## Data model -/

/-- Modelled from the spec: the declaration of `StaticProxyConf` is not in the sources at
hand; its fields are the ones `writeConf` and `parseRegedit` assign. -/
structure StaticProxyConf where
  Active : Bool
  Protocols : List (String × String)
  NoProxy : String
  deriving DecidableEq, Repr

/-- Modelled from the spec: the declaration of `ProxyScriptConf` is not in the sources at
hand; its fields are the ones `writeConf`, `parseRegedit` and `findProxyForURL` use. -/
structure ProxyScriptConf where
  Active : Bool
  PreConfiguredURL : String
  deriving DecidableEq, Repr

/-- Modelled from the spec: the declaration of `ProxyConf` is not in the sources at hand;
it pairs the static and the automatic configuration. -/
structure ProxyConf where
  Static : StaticProxyConf
  Automatic : ProxyScriptConf
  deriving DecidableEq, Repr

/-- The Go zero value of `ProxyConf`. -/
def ProxyConf.zero : ProxyConf := ⟨⟨false, [], ""⟩, ⟨false, ""⟩⟩

/-- The record `regeditValues` read from the registry. -/
structure regeditValues where
  ProxyServer : String
  ProxyOverride : String
  ProxyEnable : Nat
  AutoConfigURL : String
  deriving DecidableEq, Repr

/-- The record `tWINHTTP_CURRENT_USER_IE_PROXY_CONFIG` of the per-user source. -/
structure tWINHTTP_CURRENT_USER_IE_PROXY_CONFIG where
  fAutoDetect : Bool
  lpszAutoConfigUrl : Option String
  lpszProxy : Option String
  lpszProxyBypass : Option String
  deriving DecidableEq, Repr

/-- The record `tWINHTTP_PROXY_INFO` of the system-default source. -/
structure tWINHTTP_PROXY_INFO where
  dwAccessType : Nat
  lpszProxy : Option String
  lpszProxyBypass : Option String
  deriving DecidableEq, Repr

/-- What the three probe sources return when `writeConf` consults them: `none` is a
failed call of `getUserConfigFromWindowsSyscall` or `getDefaultProxyConfiguration`; the
error of `readRegedit` is dropped by `writeConf`, so only its record matters. -/
structure ProbeOutcome where
  user : Option tWINHTTP_CURRENT_USER_IE_PROXY_CONFIG
  dflt : Option tWINHTTP_PROXY_INFO
  regedit : regeditValues
  deriving DecidableEq, Repr

/-! ## Recomputation of the snapshot -/

/-- One pass of the loop body shared by `writeConf` and `parseRegedit`, after the empty
segment test: `pair := strings.SplitN(s, "=", 2)` and the assignment into `protocol`. -/
def storePair (protocol : List (String × String)) (s : List Char) : List (String × String) :=
  match SplitN2 '=' s with
  | k :: v :: _ => mapSet protocol ⟨k⟩ ⟨v⟩
  | [v] => mapSet protocol "" ⟨v⟩
  | [] => protocol

/-- The loop of `writeConf` over `strings.Split(proxy, ";")`: each segment is trimmed,
an empty one is skipped, the others are stored. -/
def writeConfLoop (protocol : List (String × String)) : List (List Char) → List (String × String)
  | [] => protocol
  | s :: rest =>
    let s := TrimSpace s
    if s = [] then writeConfLoop protocol rest
    else writeConfLoop (storePair protocol s) rest

/-- The loop of `parseRegedit` over `strings.Split(regedit.ProxyServer, ";")`: an empty
segment is skipped, the others are stored untrimmed. -/
def parseRegeditLoop (protocol : List (String × String)) : List (List Char) → List (String × String)
  | [] => protocol
  | s :: rest =>
    if s = [] then parseRegeditLoop protocol rest
    else parseRegeditLoop (storePair protocol s) rest

/-- The function `parseRegedit`. -/
def parseRegedit (regedit : regeditValues) : ProxyConf :=
  let protocol := parseRegeditLoop [] (Split ';' regedit.ProxyServer.data)
  { Static :=
      { Active := decide (regedit.ProxyEnable > 0)
        Protocols := protocol
        NoProxy := ⟨Replace ';' ',' regedit.ProxyOverride.data⟩ }
    Automatic :=
      { Active := decide (regedit.AutoConfigURL ≠ "")
        PreConfiguredURL := regedit.AutoConfigURL } }

/-- The local variables of `writeConf`. -/
structure Working where
  proxy : String
  proxyByPass : String
  autoConfigUrl : String
  autoDetect : Bool
  deriving DecidableEq, Repr

/-- The first block of `writeConf`: the per-user source, when its call succeeds. -/
def tryUser (user : Option tWINHTTP_CURRENT_USER_IE_PROXY_CONFIG) : Working :=
  match user with
  | some ieCfg =>
    { proxy := StringFromUTF16Ptr ieCfg.lpszProxy
      proxyByPass := StringFromUTF16Ptr ieCfg.lpszProxyBypass
      autoConfigUrl := StringFromUTF16Ptr ieCfg.lpszAutoConfigUrl
      autoDetect := ieCfg.fAutoDetect }
  | none => { proxy := "", proxyByPass := "", autoConfigUrl := "", autoDetect := false }

/-- The second block of `writeConf`: the system-default source, consulted only when
there is no static proxy and no auto-detect flag yet; it replaces both the proxy and the
bypass list. -/
def tryDefault (w : Working) (dflt : Option tWINHTTP_PROXY_INFO) : Working :=
  if w.proxy = "" ∧ w.autoDetect = false then
    match dflt with
    | some defaultCfg =>
      { w with
        proxy := StringFromUTF16Ptr defaultCfg.lpszProxy
        proxyByPass := StringFromUTF16Ptr defaultCfg.lpszProxyBypass }
    | none => w
  else w

/-- The tail of `writeConf` once a static proxy or the auto-detect flag is present: the
snapshot literal, then the two `if` blocks that fill it. -/
def buildConf (w : Working) : ProxyConf :=
  let conf : ProxyConf :=
    { Static := { Active := decide (w.proxy.length > 0), Protocols := [], NoProxy := "" }
      Automatic :=
        { Active := decide (w.autoConfigUrl.length > 0) || w.autoDetect
          PreConfiguredURL := "" } }
  let conf : ProxyConf :=
    if conf.Static.Active then
      let protocol := writeConfLoop [] (Split ';' w.proxy.data)
      let conf := { conf with Static := { conf.Static with Protocols := protocol } }
      if w.proxyByPass.length > 0 then
        { conf with Static := { conf.Static with NoProxy := ⟨Replace ';' ',' w.proxyByPass.data⟩ } }
      else conf
    else conf
  if conf.Automatic.Active then
    { conf with Automatic := { conf.Automatic with PreConfiguredURL := w.autoConfigUrl } }
  else conf

/-- The local variables of `writeConf` after its first two blocks. -/
def working (p : ProbeOutcome) : Working := tryDefault (tryUser p.user) p.dflt

/-- The function `writeConf`, as the value it assigns to `windowsProxyConf`: the registry
fallback when there is still no static proxy and no auto-detect flag, else the snapshot
built from the local variables. -/
def writeConf (p : ProbeOutcome) : ProxyConf :=
  let w := working p
  if w.proxy = "" ∧ w.autoDetect = false then parseRegedit p.regedit
  else buildConf w

/-! ## The cached snapshot -/

/-- The package variables `once` and `windowsProxyConf`, with a ghost counter of the
executions of `writeConf`. -/
structure CacheState where
  done : Bool
  windowsProxyConf : ProxyConf
  writes : Nat
  deriving DecidableEq, Repr

/-- The state at program start: `once` unused, `windowsProxyConf` the zero value. -/
def CacheState.init : CacheState := ⟨false, ProxyConf.zero, 0⟩

/-- One execution of `writeConf` on the package state; `p` is what the probe sources
return during it. -/
def runWriteConf (c : CacheState) (p : ProbeOutcome) : CacheState :=
  { c with windowsProxyConf := writeConf p, writes := c.writes + 1 }

/-- The function `getConf`: `once.Do(writeConf)`, then the cached value.  `p` is what the
probe sources would return if they were consulted during this call. -/
def getConf (c : CacheState) (p : ProbeOutcome) : ProxyConf × CacheState :=
  let c := if c.done then c else { runWriteConf c p with done := true }
  (c.windowsProxyConf, c)

/-- The function `reloadConf`: `writeConf()` and then `getConf()`. -/
def reloadConf (c : CacheState) (p p' : ProbeOutcome) : ProxyConf × CacheState :=
  getConf (runWriteConf c p) p'

/-- A run of consecutive `getConf` calls, one per probe outcome of the list, with no
`reloadConf` in between: the snapshots returned, in order, and the final state. -/
def getConfRun (c : CacheState) : List ProbeOutcome → List ProxyConf × CacheState
  | [] => ([], c)
  | p :: ps =>
    let r := getConf c p
    let rest := getConfRun r.2 ps
    (r.1 :: rest.1, rest.2)

/-! ## PAC resolution -/

/-- The record `tWINHTTP_PROXY_RESULT_ENTRY`, without its padding. -/
structure tWINHTTP_PROXY_RESULT_ENTRY where
  fProxy : Bool
  fByPass : Bool
  ProxyScheme : Nat
  pwszProxy : Option String
  ProxyPort : Nat
  deriving DecidableEq, Repr

/-- The four results of `getProxyForURLEx`; `err = none` is Go's `nil`. -/
structure Resolution where
  scheme : Nat
  proxy : String
  port : Nat
  err : Option String
  deriving DecidableEq, Repr

/-- The end of `getProxyForURLEx`, from `entries := unsafe.Slice(...)` on: `entries` is
the sequence of the result record, `err` the error value of the `winHttpGetProxyResult`
call. -/
def entrySelection (entries : List tWINHTTP_PROXY_RESULT_ENTRY) (err : Option String) :
    Resolution :=
  match entries with
  | e :: _ =>
    if e.fProxy then
      { scheme := e.ProxyScheme, proxy := StringFromUTF16Ptr e.pwszProxy,
        port := e.ProxyPort, err := none }
    else { scheme := 0, proxy := "", port := 0, err := err }
  | [] => { scheme := 0, proxy := "", port := 0, err := err }

/-- The method `findProxyForURL`; the OS resolution `getProxyForURLEx` is a parameter.
`fmt.Sprint` of strings and one integer concatenates them, the integer in decimal. -/
def findProxyForURL (psc : ProxyScriptConf) (getProxyForURLEx : String → String → Resolution)
    (URL : String) : String :=
  if psc.Active = false then ""
  else
    let r := getProxyForURLEx psc.PreConfiguredURL URL
    if r.err ≠ none then ""
    else if r.scheme = 1 then "http://" ++ r.proxy ++ ":" ++ Nat.repr r.port
    else if r.scheme = 2 then "https://" ++ r.proxy ++ ":" ++ Nat.repr r.port
    else if r.scheme = 4 then
      if HasPrefix r.proxy "4 " then ""
      else "socks5://" ++ TrimPrefix r.proxy "5 " ++ ":" ++ Nat.repr r.port
    else ""

/-! ## The change watcher -/

/-- The package variables of the watcher.  `detectCancel` is `none` for Go's `nil`, and
otherwise holds whether the context it cancels (`detectCtx`) is cancelled; `cancelEvent`
is the event handle, `0` for none; `detectError` is `none` for Go's `nil`. -/
structure WatcherState where
  detectCancel : Option Bool
  cancelEvent : Nat
  detectError : Option String
  deriving DecidableEq, Repr

/-- The watcher variables at program start. -/
def WatcherState.init : WatcherState := ⟨none, 0, none⟩

/-- The function `StopDetectChanges`; `setEvent` is the error `windows.SetEvent` returns
if it is called.  The result is the error returned and the state left. -/
def StopDetectChanges (s : WatcherState) (setEvent : Option String) :
    Option String × WatcherState :=
  let s := { s with detectCancel := s.detectCancel.map (fun _ => true) }
  if s.cancelEvent ≠ 0 then
    match setEvent with
    | some err => (some err, s)
    | none => (none, { s with cancelEvent := 0 })
  else (none, { s with cancelEvent := 0 })

/-- The function `DetectError`. -/
def DetectError (s : WatcherState) : Option String := s.detectError

/-- The assignments of `DetectChanges` before it starts `listenForChanges`: a fresh
context with its cancel function, and the last error cleared. -/
def DetectChangesStart (s : WatcherState) : WatcherState :=
  { s with detectCancel := some false, detectError := none }

/-- The result of `windows.WaitForMultipleObjects`: an error, or the event code. -/
inductive WaitOutcome where
  | failed (err : String)
  | returned (evt : Nat)
  deriving DecidableEq, Repr

/-- What the OS returns during one pass of the loop of `listenForChanges`: the error of
`RegNotifyChangeKeyValue` (`none` for `nil`), the result of the wait, and what the probe
sources return to the `reloadConf` of a notification. -/
structure PassOutcome where
  arm : Option String
  wait : WaitOutcome
  probe : ProbeOutcome
  probe' : ProbeOutcome
  deriving DecidableEq, Repr

/-- The `return` statement through which the loop of `listenForChanges` is left. -/
inductive LoopExit where
  | ctxDone
  | armFailed
  | waitFailed
  | cancelSignalled
  | unexpected
  deriving DecidableEq, Repr

/-- The package variables used by the watcher loop. -/
structure Globals where
  cache : CacheState
  watcher : WatcherState
  deriving DecidableEq, Repr

/-- The constant `windows.WAIT_OBJECT_0`. -/
def WAIT_OBJECT_0 : Nat := 0

/-- The constant `windows.WAIT_ABANDONED`. -/
def WAIT_ABANDONED : Nat := 0x80

/-- The constant `windows.WAIT_TIMEOUT`. -/
def WAIT_TIMEOUT : Nat := 258

/-- The `for` loop of `listenForChanges` over the OS outcomes of its passes.  The result
is `none` when the outcomes are used up with the loop still running. -/
def listenLoop (g : Globals) : List PassOutcome → Option (LoopExit × Globals)
  | [] => if g.watcher.detectCancel = some true then some (.ctxDone, g) else none
  | o :: rest =>
    if g.watcher.detectCancel = some true then some (.ctxDone, g)
    else
      match o.arm with
      | some err => some (.armFailed, { g with watcher := { g.watcher with detectError := some err } })
      | none =>
        match o.wait with
        | .failed _ => some (.waitFailed, { g with watcher := { g.watcher with detectError := none } })
        | .returned evt =>
          if evt = WAIT_OBJECT_0 + 0 then
            listenLoop { g with cache := (reloadConf g.cache o.probe o.probe').2 } rest
          else if evt = WAIT_OBJECT_0 + 1 then some (.cancelSignalled, g)
          else some (.unexpected, g)

/-- What the OS returns to the set-up calls of `listenForChanges`: the errors of
`registry.OpenKey` and of the first `CreateEvent`, and the handle and error of the
second `CreateEvent`. -/
structure SetupOutcome where
  openKey : Option String
  regEvent : Option String
  cancelHandle : Nat
  cancelErr : Option String
  deriving DecidableEq, Repr

/-- The result of a run of `listenForChanges`: the value sent on `initDone`, the exit of
the loop when it was entered, and the package variables afterwards. -/
structure ListenResult where
  initDone : Option String
  loopExit : Option LoopExit
  globals : Globals
  deriving DecidableEq, Repr

/-- The deferred `StopDetectChanges()` of `listenForChanges`, on the package variables. -/
def deferredStop (g : Globals) (setEvent : Option String) : Globals :=
  { g with watcher := (StopDetectChanges g.watcher setEvent).2 }

/-- The function `listenForChanges`.  The result is `none` when the outcomes are used up
with the loop still running.  The deferred calls run in reverse order: the cancel event
is closed and zeroed, the notification event and the key are closed, and
`StopDetectChanges` runs last. -/
def listenForChanges (g : Globals) (setup : SetupOutcome) (passes : List PassOutcome)
    (setEvent : Option String) : Option ListenResult :=
  match setup.openKey with
  | some err => some ⟨some err, none, deferredStop g setEvent⟩
  | none =>
    match setup.regEvent with
    | some err => some ⟨some err, none, deferredStop g setEvent⟩
    | none =>
      let g := { g with watcher := { g.watcher with cancelEvent := setup.cancelHandle } }
      match setup.cancelErr with
      | some err => some ⟨some err, none, deferredStop g setEvent⟩
      | none =>
        match listenLoop g passes with
        | none => none
        | some (exit, g) =>
          let g := { g with watcher := { g.watcher with cancelEvent := 0 } }
          some ⟨none, some exit, deferredStop g setEvent⟩

/-! ## Reference definitions, following the words of the specification -/

/-- The key a segment is stored under: the text before its first `=`, and the empty
string for a segment without `=`. -/
def segKey (seg : List Char) : String :=
  if '=' ∈ seg then ⟨seg.takeWhile (fun c => c ≠ '=')⟩ else ""

/-- The value a segment stores: the text after its first `=` (further `=` included), and
the whole segment when it has no `=`. -/
def segValue (seg : List Char) : String :=
  if '=' ∈ seg then ⟨(seg.dropWhile (fun c => c ≠ '=')).drop 1⟩ else ⟨seg⟩

/-- The mapping a list of segments denotes, read at key `k`: the value of the last
segment stored under `k`, absent when no segment is stored under `k`. -/
def segLookup (segs : List (List Char)) (k : String) : Option String :=
  ((segs.filter (fun seg => segKey seg = k)).getLast?).map segValue

/-- The mapping of the specification sentence read literally: every segment of the
split on `;` is stored, none is skipped or trimmed. -/
def literalLookup (s : String) (k : String) : Option String :=
  segLookup (Split ';' s.data) k

/-- The relation "`n` is `b` with every `;` replaced by `,` and every other character
unchanged": same length, no `;` left, and position by position the character of `b`, or
`,` where `b` has `;`. -/
def SemicolonsRewritten (b n : String) : Prop :=
  n.length = b.length ∧ ';' ∉ n.data ∧
    ∀ (i : Nat) (c : Char), b.data[i]? = some c → n.data[i]? = some (if c = ';' then ',' else c)

/-- The first entry of a result record whose is-proxy flag is set. -/
def firstProxyEntry (entries : List tWINHTTP_PROXY_RESULT_ENTRY) :
    Option tWINHTTP_PROXY_RESULT_ENTRY :=
  entries.find? (fun e => e.fProxy)

/-- The ProxyConf invariant of the data model: an inactive static part has no protocols
and no bypass list, an inactive automatic part has no URL. -/
def ProxyConf.Invariant (c : ProxyConf) : Prop :=
  (c.Static.Active = false → c.Static.Protocols = [] ∧ c.Static.NoProxy = "") ∧
    (c.Automatic.Active = false → c.Automatic.PreConfiguredURL = "")

/-- Probe sources that all yield nothing: both calls fail and the registry record is
empty. -/
def noProbe : ProbeOutcome := ⟨none, none, ⟨"", "", 0, ""⟩⟩

/-! ## Auxiliary lemmas -/

theorem length_pos_iff (s : String) : 0 < s.length ↔ s ≠ "" := by
  cases s with
  | mk l =>
    cases l with
    | nil => simp
    | cons a t => simp [String.length, String.ext_iff]

/-! ## C1: scheme mapping of `findProxyForURL` -/

/-- C1: `findProxyForURL` agrees with the reference definition case by case.  With
`Active` false the result is the empty string whatever the OS resolution would return;
with a resolution error it is the empty string; scheme 1 gives `http://proxy:port`,
scheme 2 gives `https://proxy:port`, scheme 4 gives the empty string for a proxy text
starting with `4 ` and `socks5://rest:port` for a proxy text `5 rest`; every scheme code
other than 1, 2 and 4 gives the empty string. -/
theorem findProxyForURL_cases (psc : ProxyScriptConf) (ex : String → String → Resolution)
    (URL : String) :
    (psc.Active = false → ∀ ex', findProxyForURL psc ex' URL = "") ∧
    (psc.Active = true → (ex psc.PreConfiguredURL URL).err ≠ none →
      findProxyForURL psc ex URL = "") ∧
    (psc.Active = true → (ex psc.PreConfiguredURL URL).err = none →
      ((ex psc.PreConfiguredURL URL).scheme = 1 →
        findProxyForURL psc ex URL
          = "http://" ++ (ex psc.PreConfiguredURL URL).proxy ++ ":"
              ++ Nat.repr (ex psc.PreConfiguredURL URL).port) ∧
      ((ex psc.PreConfiguredURL URL).scheme = 2 →
        findProxyForURL psc ex URL
          = "https://" ++ (ex psc.PreConfiguredURL URL).proxy ++ ":"
              ++ Nat.repr (ex psc.PreConfiguredURL URL).port) ∧
      ((ex psc.PreConfiguredURL URL).scheme = 4 →
        (∀ rest, (ex psc.PreConfiguredURL URL).proxy = "4 " ++ rest →
          findProxyForURL psc ex URL = "") ∧
        (∀ rest, (ex psc.PreConfiguredURL URL).proxy = "5 " ++ rest →
          findProxyForURL psc ex URL
            = "socks5://" ++ rest ++ ":" ++ Nat.repr (ex psc.PreConfiguredURL URL).port)) ∧
      ((ex psc.PreConfiguredURL URL).scheme ≠ 1 → (ex psc.PreConfiguredURL URL).scheme ≠ 2 →
        (ex psc.PreConfiguredURL URL).scheme ≠ 4 → findProxyForURL psc ex URL = "")) := by
  generalize hr : ex psc.PreConfiguredURL URL = r
  have h4 : "4 ".data = ['4', ' '] := rfl
  have h5 : "5 ".data = ['5', ' '] := rfl
  refine ⟨?_, ?_, ?_⟩
  · intro h ex'
    simp [findProxyForURL, h]
  · intro h he
    simp [findProxyForURL, h, hr, he]
  · intro h he
    refine ⟨?_, ?_, ?_, ?_⟩
    · intro hs
      simp [findProxyForURL, h, hr, he, hs]
    · intro hs
      simp [findProxyForURL, h, hr, he, hs]
    · intro hs
      constructor
      · intro rest hp
        simp [findProxyForURL, h, hr, he, hs, hp, HasPrefix, h4]
      · intro rest hp
        simp [findProxyForURL, h, hr, he, hs, hp, HasPrefix, TrimPrefix, h4, h5]
    · intro h1 h2 h3
      simp [findProxyForURL, h, hr, he, h1, h2, h3]

/-- C1, the three examples of the specification: scheme 1 with `proxy.co` and port 8080,
scheme 4 with `5 proxy.co`, scheme 4 with `4 proxy.co`; and an inactive configuration. -/
theorem findProxyForURL_examples :
    findProxyForURL ⟨true, "http://pac"⟩ (fun _ _ => ⟨1, "proxy.co", 8080, none⟩) "http://x"
        = "http://proxy.co:8080" ∧
      findProxyForURL ⟨true, "http://pac"⟩ (fun _ _ => ⟨4, "5 proxy.co", 8080, none⟩) "http://x"
        = "socks5://proxy.co:8080" ∧
      findProxyForURL ⟨true, "http://pac"⟩ (fun _ _ => ⟨4, "4 proxy.co", 8080, none⟩) "http://x"
        = "" ∧
      findProxyForURL ⟨false, "http://pac"⟩ (fun _ _ => ⟨1, "proxy.co", 8080, none⟩) "http://x"
        = "" := by
  have h := findProxyForURL_cases ⟨true, "http://pac"⟩
    (fun _ _ => ⟨1, "proxy.co", 8080, none⟩) "http://x"
  refine ⟨?_, ?_, ?_, ?_⟩
  · rw [(h.2.2 rfl rfl).1 rfl]; decide
  · decide
  · decide
  · decide

/-! ## C3: fallback to the system-default source -/

/-- C3: when the per-user source fails, or yields an empty static proxy and no
auto-detect flag, and the system-default source succeeds with a non-empty static proxy,
the static part of the snapshot is active, its protocols are the parse of that proxy
and its bypass list is the rewritten bypass list of the same source (empty when that
list is empty); any other probe outcome with the same system-default record, whatever
its per-user bypass list and registry record, gives the same static part. -/
theorem writeConf_system_default (p : ProbeOutcome) (d : tWINHTTP_PROXY_INFO)
    (hu : p.user = none ∨
      ∃ u, p.user = some u ∧ StringFromUTF16Ptr u.lpszProxy = "" ∧ u.fAutoDetect = false)
    (hd : p.dflt = some d) (hp : StringFromUTF16Ptr d.lpszProxy ≠ "") :
    (writeConf p).Static
        = { Active := true
            Protocols := writeConfLoop [] (Split ';' (StringFromUTF16Ptr d.lpszProxy).data)
            NoProxy := ⟨Replace ';' ',' (StringFromUTF16Ptr d.lpszProxyBypass).data⟩ } ∧
      (StringFromUTF16Ptr d.lpszProxyBypass = "" → (writeConf p).Static.NoProxy = "") ∧
      ∀ p' : ProbeOutcome,
        (p'.user = none ∨
          ∃ u, p'.user = some u ∧ StringFromUTF16Ptr u.lpszProxy = "" ∧ u.fAutoDetect = false) →
        p'.dflt = some d → (writeConf p').Static = (writeConf p).Static := by
  have key : ∀ q : ProbeOutcome,
      (q.user = none ∨
        ∃ u, q.user = some u ∧ StringFromUTF16Ptr u.lpszProxy = "" ∧ u.fAutoDetect = false) →
      q.dflt = some d →
      (writeConf q).Static
        = { Active := true
            Protocols := writeConfLoop [] (Split ';' (StringFromUTF16Ptr d.lpszProxy).data)
            NoProxy := ⟨Replace ';' ',' (StringFromUTF16Ptr d.lpszProxyBypass).data⟩ } := by
    intro q hq hqd
    have hw : working q =
        { proxy := StringFromUTF16Ptr d.lpszProxy
          proxyByPass := StringFromUTF16Ptr d.lpszProxyBypass
          autoConfigUrl := (tryUser q.user).autoConfigUrl
          autoDetect := false } := by
      rcases hq with hq | ⟨u, hq, h1, h2⟩
      · simp [working, tryUser, tryDefault, hq, hqd]
      · simp [working, tryUser, tryDefault, hq, hqd, h1, h2]
    have hlen : 0 < (StringFromUTF16Ptr d.lpszProxy).length := (length_pos_iff _).2 hp
    by_cases hb : StringFromUTF16Ptr d.lpszProxyBypass = ""
    · have hb0 : ¬ 0 < (StringFromUTF16Ptr d.lpszProxyBypass).length := by
        rw [length_pos_iff]; simpa using hb
      have hr : (⟨Replace ';' ',' (StringFromUTF16Ptr d.lpszProxyBypass).data⟩ : String) = "" := by
        rw [hb]; rfl
      rw [hr]
      simp only [writeConf, hw]
      simp only [hp, false_and, if_false]
      by_cases ha : (decide ((tryUser q.user).autoConfigUrl.length > 0) || false) = true
      · simp [buildConf, hlen, hb0, ha]
      · simp [buildConf, hlen, hb0, ha]
    · have hb0 : 0 < (StringFromUTF16Ptr d.lpszProxyBypass).length := (length_pos_iff _).2 hb
      simp only [writeConf, hw]
      simp only [hp, false_and, if_false]
      by_cases ha : (decide ((tryUser q.user).autoConfigUrl.length > 0) || false) = true
      · simp [buildConf, hlen, hb0, ha]
      · simp [buildConf, hlen, hb0, ha]
  refine ⟨key p hu hd, ?_, ?_⟩
  · intro hb
    rw [key p hu hd, hb]
    rfl
  · intro p' hu' hd'
    rw [key p hu hd, key p' hu' hd']

/-- C3 at a concrete probe outcome: the per-user source yields only a bypass list, the
system default yields a proxy and a bypass list, the registry holds other values. -/
theorem writeConf_system_default_witness :
    (writeConf ⟨some ⟨false, none, none, some "user.local"⟩,
        some ⟨3, some "http=1.2.3.4:80", some "*.local;10.0.0.0/8"⟩,
        ⟨"9.9.9.9:9", "reg.local", 1, ""⟩⟩).Static
      = ⟨true, [("http", "1.2.3.4:80")], "*.local,10.0.0.0/8"⟩ := by
  have h := (writeConf_system_default
    ⟨some ⟨false, none, none, some "user.local"⟩,
      some ⟨3, some "http=1.2.3.4:80", some "*.local;10.0.0.0/8"⟩,
      ⟨"9.9.9.9:9", "reg.local", 1, ""⟩⟩
    ⟨3, some "http=1.2.3.4:80", some "*.local;10.0.0.0/8"⟩
    (Or.inr ⟨_, rfl, rfl, rfl⟩) rfl (by decide)).1
  rw [h]
  decide

/-! ## C4: the automatic part of the snapshot -/

/-- Whether the automatic part of `buildConf` is active, and its URL. -/
theorem buildConf_Automatic (w : Working) :
    (buildConf w).Automatic =
      if w.autoConfigUrl ≠ "" ∨ w.autoDetect = true then ⟨true, w.autoConfigUrl⟩
      else ⟨false, ""⟩ := by
  by_cases hu : w.autoConfigUrl = ""
  · have hl : ¬ 0 < w.autoConfigUrl.length := by rw [length_pos_iff]; simpa using hu
    by_cases hp : 0 < w.proxy.length <;> by_cases hb : 0 < w.proxyByPass.length <;>
      cases hd : w.autoDetect <;> simp [buildConf, hu, hl, hp, hb, hd]
  · have hl : 0 < w.autoConfigUrl.length := (length_pos_iff _).2 hu
    by_cases hp : 0 < w.proxy.length <;> by_cases hb : 0 < w.proxyByPass.length <;>
      cases hd : w.autoDetect <;> simp [buildConf, hu, hl, hp, hb, hd]

/-- C4 as stated fails: the per-user source yields the auto-config URL `http://pac`
and nothing else, no source yields a static proxy, the registry record is empty; the
snapshot is the registry one and its automatic part is inactive. -/
theorem writeConf_autoConfigUrl_dropped :
    StringFromUTF16Ptr
        (tWINHTTP_CURRENT_USER_IE_PROXY_CONFIG.mk false (some "http://pac") none none).lpszAutoConfigUrl
        = "http://pac" ∧
      ¬ ((writeConf ⟨some ⟨false, some "http://pac", none, none⟩, none,
            ⟨"", "", 0, ""⟩⟩).Automatic.Active = true ∧
          (writeConf ⟨some ⟨false, some "http://pac", none, none⟩, none,
            ⟨"", "", 0, ""⟩⟩).Automatic.PreConfiguredURL = "http://pac") := by
  decide

/-- C4, amended: when the per-user source yields the auto-detect flag, or yields a
non-empty auto-config URL while a static proxy is obtained from the per-user or the
system-default source, the automatic part is active with the URL of the per-user source;
when it yields no static proxy and no auto-detect flag and the system-default source
fails or yields an empty proxy, the snapshot is the one parsed from the registry record,
whatever the auto-config URL of the per-user source. -/
theorem writeConf_Automatic (p : ProbeOutcome) (u : tWINHTTP_CURRENT_USER_IE_PROXY_CONFIG)
    (hu : p.user = some u) :
    (u.fAutoDetect = true ∨
        (StringFromUTF16Ptr u.lpszAutoConfigUrl ≠ "" ∧
          (StringFromUTF16Ptr u.lpszProxy ≠ "" ∨
            ∃ d, p.dflt = some d ∧ StringFromUTF16Ptr d.lpszProxy ≠ "")) →
      (writeConf p).Automatic = ⟨true, StringFromUTF16Ptr u.lpszAutoConfigUrl⟩) ∧
    (u.fAutoDetect = false → StringFromUTF16Ptr u.lpszProxy = "" →
      (p.dflt = none ∨ ∃ d, p.dflt = some d ∧ StringFromUTF16Ptr d.lpszProxy = "") →
      writeConf p = parseRegedit p.regedit) := by
  constructor
  · intro h
    rcases h with h | ⟨hurl, h | ⟨d, hd, hdp⟩⟩
    · have hw : working p = tryUser p.user := by
        simp [working, tryUser, tryDefault, hu, h]
      have hne : ¬ ((working p).proxy = "" ∧ (working p).autoDetect = false) := by
        simp [hw, tryUser, hu, h]
      simp only [writeConf, hne, if_false]
      rw [buildConf_Automatic, hw]
      simp [tryUser, hu, h]
    · have hw : working p = tryUser p.user := by
        simp [working, tryUser, tryDefault, hu, h]
      have hne : ¬ ((working p).proxy = "" ∧ (working p).autoDetect = false) := by
        simp [hw, tryUser, hu, h]
      simp only [writeConf, hne, if_false]
      rw [buildConf_Automatic, hw]
      simp [tryUser, hu, hurl]
    · by_cases hc : StringFromUTF16Ptr u.lpszProxy = "" ∧ u.fAutoDetect = false
      · have hw : working p =
            { proxy := StringFromUTF16Ptr d.lpszProxy
              proxyByPass := StringFromUTF16Ptr d.lpszProxyBypass
              autoConfigUrl := StringFromUTF16Ptr u.lpszAutoConfigUrl
              autoDetect := false } := by
          simp [working, tryUser, tryDefault, hu, hd, hc.1, hc.2]
        have hne : ¬ ((working p).proxy = "" ∧ (working p).autoDetect = false) := by
          simp [hw, hdp]
        simp only [writeConf, hne, if_false]
        rw [buildConf_Automatic, hw]
        simp [hurl]
      · have hw : working p = tryUser p.user := by
          simp only [working, tryUser, tryDefault, hu]
          simp [hc]
        have hne : ¬ ((working p).proxy = "" ∧ (working p).autoDetect = false) := by
          simpa [hw, tryUser, hu] using hc
        simp only [writeConf, hne, if_false]
        rw [buildConf_Automatic, hw]
        simp [tryUser, hu, hurl]
  · intro ha hp hd
    have hw : (working p).proxy = "" ∧ (working p).autoDetect = false := by
      rcases hd with hd | ⟨d, hd, hdp⟩
      · simp [working, tryUser, tryDefault, hu, hd, ha, hp]
      · simp [working, tryUser, tryDefault, hu, hd, ha, hp, hdp]
    simp [writeConf, hw]

/-- C4, amended, at concrete probe outcomes: pure auto-detect, and an auto-config URL
next to a static proxy of the system-default source. -/
theorem writeConf_Automatic_witness :
    (writeConf ⟨some ⟨true, none, none, none⟩, none, ⟨"", "", 0, "http://reg"⟩⟩).Automatic
        = ⟨true, ""⟩ ∧
      (writeConf ⟨some ⟨false, some "http://pac", none, none⟩, some ⟨3, some "a:80", none⟩,
          ⟨"", "", 0, "http://reg"⟩⟩).Automatic
        = ⟨true, "http://pac"⟩ :=
  ⟨(writeConf_Automatic ⟨some ⟨true, none, none, none⟩, none, ⟨"", "", 0, "http://reg"⟩⟩
      ⟨true, none, none, none⟩ rfl).1 (Or.inl rfl),
    (writeConf_Automatic
      ⟨some ⟨false, some "http://pac", none, none⟩, some ⟨3, some "a:80", none⟩,
        ⟨"", "", 0, "http://reg"⟩⟩
      ⟨false, some "http://pac", none, none⟩ rfl).1
      (Or.inr ⟨by decide, Or.inr ⟨_, rfl, by decide⟩⟩)⟩

/-! ## C5: the ProxyConf invariant -/

/-- The static part of `buildConf` when no static proxy is present. -/
theorem buildConf_Static_inactive (w : Working) (h : (buildConf w).Static.Active = false) :
    (buildConf w).Static.Protocols = [] ∧ (buildConf w).Static.NoProxy = "" := by
  by_cases hp : 0 < w.proxy.length
  · exfalso
    by_cases hb : 0 < w.proxyByPass.length <;>
      by_cases ha : (decide (w.autoConfigUrl.length > 0) || w.autoDetect) = true <;>
      simp [buildConf, hp, hb, ha] at h
  · by_cases ha : (decide (w.autoConfigUrl.length > 0) || w.autoDetect) = true <;>
      simp [buildConf, hp, ha]

/-- C5 as stated fails on the registry path: with every probe call failing and the
registry record holding a proxy server and a bypass list with `ProxyEnable = 0`, the
snapshot has an inactive static part whose protocols and bypass list are not empty. -/
theorem writeConf_registry_breaks_invariant :
    (writeConf ⟨none, none, ⟨"1.2.3.4:80", "*.local", 0, ""⟩⟩).Static.Active = false ∧
      (writeConf ⟨none, none, ⟨"1.2.3.4:80", "*.local", 0, ""⟩⟩).Static.Protocols
        = [("", "1.2.3.4:80")] ∧
      (writeConf ⟨none, none, ⟨"1.2.3.4:80", "*.local", 0, ""⟩⟩).Static.NoProxy = "*.local" ∧
      ¬ (writeConf ⟨none, none, ⟨"1.2.3.4:80", "*.local", 0, ""⟩⟩).Invariant ∧
      ¬ (parseRegedit ⟨"1.2.3.4:80", "*.local", 0, ""⟩).Invariant := by
  refine ⟨by decide, by decide, by decide, ?_, ?_⟩
  · intro h
    exact absurd (h.1 (by decide)).1 (by decide)
  · intro h
    exact absurd (h.1 (by decide)).1 (by decide)

/-- C5, amended: every snapshot of the recomputation, on the main path and on the
registry path, has an empty URL when its automatic part is inactive; a snapshot built on
the main path of `writeConf` (a static proxy or the auto-detect flag was found) satisfies
the whole invariant; on the registry path the protocols and the bypass list are parsed
from `ProxyServer` and `ProxyOverride` whatever `ProxyEnable` is. -/
theorem writeConf_invariant (p : ProbeOutcome) (r : regeditValues) :
    ((writeConf p).Automatic.Active = false → (writeConf p).Automatic.PreConfiguredURL = "") ∧
    ((parseRegedit r).Automatic.Active = false →
      (parseRegedit r).Automatic.PreConfiguredURL = "") ∧
    (¬ ((working p).proxy = "" ∧ (working p).autoDetect = false) → (writeConf p).Invariant) ∧
    ((parseRegedit r).Static.Protocols = parseRegeditLoop [] (Split ';' r.ProxyServer.data) ∧
      (parseRegedit r).Static.NoProxy = ⟨Replace ';' ',' r.ProxyOverride.data⟩) := by
  have hreg : ∀ r' : regeditValues, (parseRegedit r').Automatic.Active = false →
      (parseRegedit r').Automatic.PreConfiguredURL = "" := by
    intro r' h
    simpa [parseRegedit] using h
  have hbuild : ∀ w : Working, (buildConf w).Automatic.Active = false →
      (buildConf w).Automatic.PreConfiguredURL = "" := by
    intro w h
    rw [buildConf_Automatic] at h ⊢
    by_cases hc : w.autoConfigUrl ≠ "" ∨ w.autoDetect = true
    · rw [if_pos hc] at h
      simp at h
    · rw [if_neg hc]
  refine ⟨?_, hreg r, ?_, rfl, rfl⟩
  · by_cases hc : (working p).proxy = "" ∧ (working p).autoDetect = false
    · simp only [writeConf, hc, and_self, if_true]
      exact hreg _
    · simp only [writeConf, hc, if_false]
      exact hbuild _
  · intro hc
    simp only [writeConf, hc, if_false]
    exact ⟨buildConf_Static_inactive _, hbuild _⟩

/-- C5, amended, at concrete probe outcomes: pure auto-detect on the main path, and
the empty registry record. -/
theorem writeConf_invariant_witness :
    (writeConf ⟨some ⟨true, none, none, none⟩, none, ⟨"1.2.3.4:80", "", 0, ""⟩⟩).Invariant ∧
      (writeConf noProbe).Automatic.PreConfiguredURL = "" :=
  ⟨(writeConf_invariant ⟨some ⟨true, none, none, none⟩, none, ⟨"1.2.3.4:80", "", 0, ""⟩⟩
      ⟨"", "", 0, ""⟩).2.2.1 (by decide),
    (writeConf_invariant noProbe ⟨"", "", 0, ""⟩).1 (by decide)⟩

/-! ## C6: the entry selected from the result record -/

/-- C6 as stated fails: in a record whose first entry is not a proxy and whose second
entry is the proxy `p:80` with scheme 1, the first entry with the flag set is the second
one, and `getProxyForURLEx` returns the no-proxy result. -/
theorem entrySelection_skips_later_entries :
    firstProxyEntry [⟨false, true, 0, none, 0⟩, ⟨true, false, 1, some "p", 80⟩]
        = some ⟨true, false, 1, some "p", 80⟩ ∧
      entrySelection [⟨false, true, 0, none, 0⟩, ⟨true, false, 1, some "p", 80⟩] none
        = ⟨0, "", 0, none⟩ ∧
      entrySelection [⟨false, true, 0, none, 0⟩, ⟨true, false, 1, some "p", 80⟩] none
        ≠ ⟨1, "p", 80, none⟩ := by
  decide

/-- C6, amended: the selection looks at the entry at index 0 only.  It returns the
scheme, proxy text and port of that entry, with no error, when its is-proxy flag is set;
it returns the no-proxy result with the error value of the call when the record is empty
or its first entry has the flag unset, in particular when no entry has the flag set. -/
theorem entrySelection_first_entry (entries : List tWINHTTP_PROXY_RESULT_ENTRY)
    (err : Option String) :
    (∀ e rest, entries = e :: rest → e.fProxy = true →
      entrySelection entries err
        = ⟨e.ProxyScheme, StringFromUTF16Ptr e.pwszProxy, e.ProxyPort, none⟩) ∧
    (∀ e rest, entries = e :: rest → e.fProxy = false →
      entrySelection entries err = ⟨0, "", 0, err⟩) ∧
    (entries = [] → entrySelection entries err = ⟨0, "", 0, err⟩) ∧
    (firstProxyEntry entries = none → entrySelection entries err = ⟨0, "", 0, err⟩) := by
  refine ⟨?_, ?_, ?_, ?_⟩
  · intro e rest he hf
    simp [entrySelection, he, hf]
  · intro e rest he hf
    simp [entrySelection, he, hf]
  · intro he
    simp [entrySelection, he]
  · intro hn
    cases entries with
    | nil => simp [entrySelection]
    | cons e rest =>
      have hf : e.fProxy = false := by
        cases hf : e.fProxy
        · rfl
        · simp [firstProxyEntry, List.find?, hf] at hn
      simp [entrySelection, hf]

/-- C6, amended, at concrete records: a flagged first entry followed by another proxy,
and the empty record. -/
theorem entrySelection_first_entry_witness :
    entrySelection [⟨true, false, 2, some "a", 443⟩, ⟨true, false, 1, some "p", 80⟩] none
        = ⟨2, "a", 443, none⟩ ∧
      entrySelection [] (some "e") = ⟨0, "", 0, some "e"⟩ :=
  ⟨(entrySelection_first_entry _ none).1 _ _ rfl rfl,
    (entrySelection_first_entry [] (some "e")).2.2.1 rfl⟩

/-! ## C7: what the watcher records when its loop is left -/

/-- The loop never sets the last error on an exit through the wait: started with no
last error, it leaves none unless the arming call failed. -/
theorem listenLoop_detectError (passes : List PassOutcome) (g g' : Globals) (exit : LoopExit)
    (h0 : g.watcher.detectError = none) (h : listenLoop g passes = some (exit, g')) :
    (exit = LoopExit.armFailed → g'.watcher.detectError ≠ none) ∧
      (exit ≠ LoopExit.armFailed → g'.watcher.detectError = none) := by
  induction passes generalizing g with
  | nil =>
    by_cases hc : g.watcher.detectCancel = some true
    · simp [listenLoop, hc] at h
      obtain ⟨h1, h2⟩ := h
      subst h1; subst h2
      simp [h0]
    · simp [listenLoop, hc] at h
  | cons o rest ih =>
    by_cases hc : g.watcher.detectCancel = some true
    · simp [listenLoop, hc] at h
      obtain ⟨h1, h2⟩ := h
      subst h1; subst h2
      simp [h0]
    · cases ha : o.arm with
      | some err =>
        simp [listenLoop, hc, ha] at h
        obtain ⟨h1, h2⟩ := h
        subst h1; subst h2
        simp
      | none =>
        cases hw : o.wait with
        | failed e =>
          simp [listenLoop, hc, ha, hw] at h
          obtain ⟨h1, h2⟩ := h
          subst h1; subst h2
          simp
        | returned evt =>
          by_cases h1 : evt = WAIT_OBJECT_0 + 0
          · simp only [listenLoop, hc, ha, hw, h1, if_true, if_false] at h
            exact ih ⟨(reloadConf g.cache o.probe o.probe').2, g.watcher⟩ h0 h
          · by_cases h2 : evt = WAIT_OBJECT_0 + 1
            · simp only [listenLoop, hc, ha, hw, h1, h2, if_true, if_false] at h
              simp at h
              obtain ⟨h3, h4⟩ := h
              subst h3; subst h4
              simp [h0]
            · simp only [listenLoop, hc, ha, hw, h1, h2, if_false] at h
              simp at h
              obtain ⟨h3, h4⟩ := h
              subst h3; subst h4
              simp [h0]

/-- C7, the code at the failing inputs: after `DetectChanges` has cleared the last
error and the set-up has succeeded, a pass in which the arming succeeds and the wait call
fails leaves the loop through the wait-failed return with `DetectError()` nil; a pass in
which the wait returns `WAIT_TIMEOUT` or `WAIT_ABANDONED` leaves it through the default
branch with `DetectError()` nil; a failed arming is recorded, and the cancellation event
leaves `DetectError()` nil. -/
theorem listenForChanges_wait_failure_not_recorded :
    (listenForChanges ⟨CacheState.init, DetectChangesStart WatcherState.init⟩
        ⟨none, none, 7, none⟩ [⟨none, .failed "wait failed", noProbe, noProbe⟩] none).map
        (fun r => (r.loopExit, DetectError r.globals.watcher))
      = some (some LoopExit.waitFailed, none) ∧
    (listenForChanges ⟨CacheState.init, DetectChangesStart WatcherState.init⟩
        ⟨none, none, 7, none⟩ [⟨none, .returned WAIT_TIMEOUT, noProbe, noProbe⟩] none).map
        (fun r => (r.loopExit, DetectError r.globals.watcher))
      = some (some LoopExit.unexpected, none) ∧
    (listenForChanges ⟨CacheState.init, DetectChangesStart WatcherState.init⟩
        ⟨none, none, 7, none⟩ [⟨none, .returned WAIT_ABANDONED, noProbe, noProbe⟩] none).map
        (fun r => (r.loopExit, DetectError r.globals.watcher))
      = some (some LoopExit.unexpected, none) ∧
    (listenForChanges ⟨CacheState.init, DetectChangesStart WatcherState.init⟩
        ⟨none, none, 7, none⟩ [⟨some "arm failed", .returned 0, noProbe, noProbe⟩] none).map
        (fun r => (r.loopExit, DetectError r.globals.watcher))
      = some (some LoopExit.armFailed, some "arm failed") ∧
    (listenForChanges ⟨CacheState.init, DetectChangesStart WatcherState.init⟩
        ⟨none, none, 7, none⟩ [⟨none, .returned (WAIT_OBJECT_0 + 1), noProbe, noProbe⟩] none).map
        (fun r => (r.loopExit, DetectError r.globals.watcher))
      = some (some LoopExit.cancelSignalled, none) := by
  decide

/-! ## C9: the cache -/

/-- Once the snapshot is computed, a run of `getConf` calls returns it every time and
leaves the state as it is. -/
theorem getConfRun_done (c : CacheState) (hd : c.done = true) (ps : List ProbeOutcome) :
    getConfRun c ps = (List.replicate ps.length c.windowsProxyConf, c) := by
  induction ps with
  | nil => rfl
  | cons p ps ih =>
    have h1 : getConf c p = (c.windowsProxyConf, c) := by simp [getConf, hd]
    simp [getConfRun, h1, ih, List.replicate_succ]

/-- The state after `getConf` has the once-flag set. -/
theorem getConf_done (c : CacheState) (p : ProbeOutcome) : (getConf c p).2.done = true := by
  by_cases hd : c.done = true
  · simp [getConf, hd]
  · simp [getConf, hd]

/-- The snapshot `getConf` returns is the cached one of the state it leaves. -/
theorem getConf_fst (c : CacheState) (p : ProbeOutcome) :
    (getConf c p).1 = (getConf c p).2.windowsProxyConf := rfl

/-- C9: from every state of the cache, two consecutive `getConf` calls return the same
snapshot, whatever the probe sources would return at each call; in a run of `getConf`
calls with no `reloadConf` in between all returned snapshots are equal, and `writeConf`
is executed at most once during the run, and not at all when the snapshot was already
computed. -/
theorem getConf_idempotent (c : CacheState) (p p' : ProbeOutcome) (ps : List ProbeOutcome) :
    (getConf (getConf c p).2 p').1 = (getConf c p).1 ∧
      (getConf (getConf c p).2 p').2.writes = (getConf c p).2.writes ∧
      (∀ r ∈ (getConfRun c ps).1, ∀ r' ∈ (getConfRun c ps).1, r = r') ∧
      (getConfRun c ps).2.writes ≤ c.writes + 1 ∧
      (c.done = true → (getConfRun c ps).2.writes = c.writes) := by
  have hrun : ∀ (c : CacheState) (ps : List ProbeOutcome),
      (∃ x, ∀ r ∈ (getConfRun c ps).1, r = x) ∧ (getConfRun c ps).2.writes ≤ c.writes + 1 := by
    intro c ps
    cases ps with
    | nil => exact ⟨⟨c.windowsProxyConf, by simp [getConfRun]⟩, by simp [getConfRun]⟩
    | cons q qs =>
      have hd := getConf_done c q
      have hr := getConfRun_done (getConf c q).2 hd qs
      refine ⟨⟨(getConf c q).1, ?_⟩, ?_⟩
      · intro r hr'
        simp only [getConfRun, hr, List.mem_cons] at hr'
        rcases hr' with h | h
        · exact h
        · rw [getConf_fst]
          exact List.eq_of_mem_replicate h
      · simp only [getConfRun, hr]
        by_cases hc : c.done = true
        · simp [getConf, hc]
        · simp [getConf, hc, runWriteConf]
  refine ⟨?_, ?_, ?_, (hrun c ps).2, ?_⟩
  · by_cases hc : c.done = true <;> simp [getConf, hc]
  · by_cases hc : c.done = true <;> simp [getConf, hc]
  · obtain ⟨x, hx⟩ := (hrun c ps).1
    intro r hr r' hr'
    rw [hx r hr, hx r' hr']
  · intro hc
    rw [getConfRun_done c hc ps]

/-- C9 at the initial state with three calls whose probe sources change between the
calls: the three snapshots are the one computed at the first call. -/
theorem getConf_idempotent_witness :
    (getConfRun CacheState.init
        [⟨none, some ⟨3, some "a:80", none⟩, ⟨"", "", 0, ""⟩⟩, noProbe,
          ⟨none, none, ⟨"b:81", "", 1, ""⟩⟩]).1
      = List.replicate 3 ⟨⟨true, [("", "a:80")], ""⟩, ⟨false, ""⟩⟩ ∧
    (getConfRun CacheState.init
        [⟨none, some ⟨3, some "a:80", none⟩, ⟨"", "", 0, ""⟩⟩, noProbe,
          ⟨none, none, ⟨"b:81", "", 1, ""⟩⟩]).2.writes ≤ 0 + 1 :=
  ⟨by decide,
    (getConf_idempotent CacheState.init noProbe noProbe
      [⟨none, some ⟨3, some "a:80", none⟩, ⟨"", "", 0, ""⟩⟩, noProbe,
        ⟨none, none, ⟨"b:81", "", 1, ""⟩⟩]).2.2.2.1⟩

/-! ## C10: `StopDetectChanges` -/

/-- C10: called on the state in which `DetectChanges` never ran (`detectCancel` nil,
`cancelEvent` 0), `StopDetectChanges` returns nil and leaves the state unchanged; after
a call that returned nil the event handle is 0, and a second call returns nil and
leaves the state as the first call left it; every call cancels the token when there is
one, also a call in which signalling the event fails. -/
theorem StopDetectChanges_idempotent (s : WatcherState) (setEvent setEvent' : Option String)
    (lastErr : Option String) :
    StopDetectChanges ⟨none, 0, lastErr⟩ setEvent = (none, ⟨none, 0, lastErr⟩) ∧
    ((StopDetectChanges s setEvent).1 = none →
      (StopDetectChanges s setEvent).2.cancelEvent = 0 ∧
        StopDetectChanges (StopDetectChanges s setEvent).2 setEvent'
          = (none, (StopDetectChanges s setEvent).2)) ∧
    (∀ tok, s.detectCancel = some tok →
      (StopDetectChanges s setEvent).2.detectCancel = some true) ∧
    (s.cancelEvent ≠ 0 → ∀ err, setEvent = some err →
      (StopDetectChanges s setEvent).1 = some err ∧
        ∀ tok, s.detectCancel = some tok →
          (StopDetectChanges s setEvent).2.detectCancel = some true) := by
  obtain ⟨dc, ce, de⟩ := s
  refine ⟨?_, ?_, ?_, ?_⟩
  · simp [StopDetectChanges]
  · intro h
    by_cases hce : ce = 0
    · subst hce
      cases dc <;> simp [StopDetectChanges]
    · cases setEvent with
      | none => cases dc <;> simp [StopDetectChanges, hce]
      | some err => simp [StopDetectChanges, hce] at h
  · intro tok ht
    simp only at ht
    subst ht
    by_cases hce : ce = 0
    · simp [StopDetectChanges, hce]
    · cases setEvent <;> simp [StopDetectChanges, hce]
  · intro hce err he
    simp only at hce
    subst he
    refine ⟨by simp [StopDetectChanges, hce], ?_⟩
    intro tok ht
    simp only at ht
    subst ht
    simp [StopDetectChanges, hce]

/-- C10 at a running watcher with event handle 7: a stop whose signal succeeds, then a
second stop. -/
theorem StopDetectChanges_idempotent_witness :
    StopDetectChanges ⟨some false, 7, none⟩ none = (none, ⟨some true, 0, none⟩) ∧
      StopDetectChanges (StopDetectChanges ⟨some false, 7, none⟩ none).2 (some "unused")
        = (none, ⟨some true, 0, none⟩) ∧
      StopDetectChanges ⟨some false, 7, none⟩ (some "set event failed")
        = (some "set event failed", ⟨some true, 7, none⟩) :=
  ⟨by decide,
    ((StopDetectChanges_idempotent ⟨some false, 7, none⟩ none (some "unused") none).2.1
      (by decide)).2,
    by decide⟩

/-! ## C8: the bypass list -/

theorem Replace_length (old new : Char) (l : List Char) :
    (Replace old new l).length = l.length := by
  induction l with
  | nil => rfl
  | cons c cs ih => by_cases h : c = old <;> simp [Replace, h, ih]

theorem Replace_not_mem (old new : Char) (hne : old ≠ new) (l : List Char) :
    old ∉ Replace old new l := by
  induction l with
  | nil => simp [Replace]
  | cons c cs ih =>
    by_cases h : c = old
    · simp [Replace, h, ih, hne]
    · simp [Replace, h, ih, Ne.symm h]

theorem Replace_getElem? (old new : Char) (l : List Char) (i : Nat) (c : Char)
    (h : l[i]? = some c) : (Replace old new l)[i]? = some (if c = old then new else c) := by
  induction l generalizing i with
  | nil => simp at h
  | cons a as ih =>
    cases i with
    | zero =>
      simp at h
      subst h
      by_cases ha : a = old <;> simp [Replace, ha]
    | succ j =>
      simp at h
      by_cases ha : a = old <;> simp [Replace, ha, ih j h]

/-- The text `Replace` produces from `b` is `b` with its semicolons rewritten. -/
theorem SemicolonsRewritten_Replace (b : String) :
    SemicolonsRewritten b ⟨Replace ';' ',' b.data⟩ :=
  ⟨Replace_length _ _ _, Replace_not_mem _ _ (by decide) _,
    fun i c h => Replace_getElem? _ _ _ i c h⟩

/-- The static part `buildConf` builds when a static proxy is present. -/
theorem buildConf_Static_active (w : Working) (hp : w.proxy ≠ "") :
    (buildConf w).Static
      = { Active := true
          Protocols := writeConfLoop [] (Split ';' w.proxy.data)
          NoProxy := ⟨Replace ';' ',' w.proxyByPass.data⟩ } := by
  have hlen : 0 < w.proxy.length := (length_pos_iff _).2 hp
  by_cases hb : w.proxyByPass = ""
  · have hb0 : ¬ 0 < w.proxyByPass.length := by rw [length_pos_iff]; simpa using hb
    have hr : (⟨Replace ';' ',' w.proxyByPass.data⟩ : String) = "" := by rw [hb]; rfl
    rw [hr]
    by_cases ha : (decide (w.autoConfigUrl.length > 0) || w.autoDetect) = true <;>
      simp [buildConf, hlen, hb0, ha]
  · have hb0 : 0 < w.proxyByPass.length := (length_pos_iff _).2 hb
    by_cases ha : (decide (w.autoConfigUrl.length > 0) || w.autoDetect) = true <;>
      simp [buildConf, hlen, hb0, ha]

/-- The static part `writeConf` writes when a static proxy was obtained. -/
theorem writeConf_Static_active (p : ProbeOutcome) (hp : (working p).proxy ≠ "") :
    (writeConf p).Static
      = { Active := true
          Protocols := writeConfLoop [] (Split ';' (working p).proxy.data)
          NoProxy := ⟨Replace ';' ',' (working p).proxyByPass.data⟩ } := by
  have hne : ¬ ((working p).proxy = "" ∧ (working p).autoDetect = false) := fun h => hp h.1
  simp only [writeConf, hne, if_false]
  exact buildConf_Static_active _ hp

/-- C8: the `NoProxy` field is the adopted bypass list with every `;` replaced by `,`
and every other character unchanged (same length, no `;` left, the same character at
every position that is not a `;`), for the `ProxyOverride` of the registry record in
`parseRegedit` and for the bypass list of the working values when `writeConf` builds an
active static part. -/
theorem NoProxy_semicolons_rewritten (p : ProbeOutcome) (r : regeditValues) :
    SemicolonsRewritten r.ProxyOverride (parseRegedit r).Static.NoProxy ∧
      ((working p).proxy ≠ "" →
        (writeConf p).Static.Active = true ∧
          SemicolonsRewritten (working p).proxyByPass (writeConf p).Static.NoProxy) := by
  refine ⟨SemicolonsRewritten_Replace _, ?_⟩
  intro hp
  rw [writeConf_Static_active p hp]
  exact ⟨rfl, SemicolonsRewritten_Replace _⟩

/-- C8 at the bypass list `*.local;10.0.0.0/8`, on the registry path and on the main
path. -/
theorem NoProxy_semicolons_rewritten_witness :
    (parseRegedit ⟨"a:80", "*.local;10.0.0.0/8", 1, ""⟩).Static.NoProxy = "*.local,10.0.0.0/8" ∧
      (writeConf ⟨some ⟨false, none, some "a:80", some "*.local;10.0.0.0/8"⟩, none,
          ⟨"", "", 0, ""⟩⟩).Static.NoProxy = "*.local,10.0.0.0/8" ∧
      SemicolonsRewritten "*.local;10.0.0.0/8"
        (writeConf ⟨some ⟨false, none, some "a:80", some "*.local;10.0.0.0/8"⟩, none,
          ⟨"", "", 0, ""⟩⟩).Static.NoProxy :=
  ⟨by decide, by decide,
    ((NoProxy_semicolons_rewritten
      ⟨some ⟨false, none, some "a:80", some "*.local;10.0.0.0/8"⟩, none, ⟨"", "", 0, ""⟩⟩
      ⟨"", "", 0, ""⟩).2 (by decide)).2⟩

/-! ## C2: the protocols mapping -/

theorem mapGet_mapSet (m : List (String × String)) (k v k' : String) :
    mapGet (mapSet m k v) k' = if k = k' then some v else mapGet m k' := by
  induction m with
  | nil => by_cases h : k = k' <;> simp [mapSet, mapGet, h]
  | cons e rest ih =>
    obtain ⟨a, b⟩ := e
    by_cases h : a = k
    · by_cases h' : k = k' <;> simp [mapSet, mapGet, h, h']
    · by_cases h' : a = k'
      · have hne : k ≠ k' := fun hk => h (h'.trans hk.symm)
        subst h'
        simp [mapSet, mapGet, h, hne]
      · simp [mapSet, mapGet, h, h', ih]

/-- The loop body stores a segment under its key with its value. -/
theorem storePair_eq (m : List (String × String)) (s : List Char) :
    storePair m s = mapSet m (segKey s) (segValue s) := by
  by_cases h : '=' ∈ s
  · have hd : s.dropWhile (fun c => c ≠ '=') ≠ [] := by
      intro hnil
      rw [List.dropWhile_eq_nil_iff] at hnil
      have := hnil '=' h
      simp at this
    cases hs : s.dropWhile (fun c => c ≠ '=') with
    | nil => exact absurd hs hd
    | cons a after =>
      simp only [storePair, SplitN2, segKey, segValue, h, hs, if_true]
      rfl
  · have hd : s.dropWhile (fun c => c ≠ '=') = [] := by
      rw [List.dropWhile_eq_nil_iff]
      intro x hx
      have : x ≠ '=' := fun hc => h (hc ▸ hx)
      simpa using this
    simp only [storePair, SplitN2, segKey, segValue, h, hd, if_false]

theorem segLookup_cons (s : List Char) (rest : List (List Char)) (k : String) :
    segLookup (s :: rest) k
      = match segLookup rest k with
        | some v => some v
        | none => if segKey s = k then some (segValue s) else none := by
  by_cases hk : segKey s = k
  · cases hr : (rest.filter (fun seg => segKey seg = k)).getLast? with
    | none => simp [segLookup, List.filter_cons, hk, List.getLast?_cons, hr]
    | some x => simp [segLookup, List.filter_cons, hk, List.getLast?_cons, hr]
  · cases hr : (rest.filter (fun seg => segKey seg = k)).getLast? with
    | none => simp [segLookup, List.filter_cons, hk, hr]
    | some x => simp [segLookup, List.filter_cons, hk, hr]

theorem parseRegeditLoop_lookup (segs : List (List Char)) (m : List (String × String))
    (k : String) :
    mapGet (parseRegeditLoop m segs) k
      = match segLookup (segs.filter (fun s => s ≠ [])) k with
        | some v => some v
        | none => mapGet m k := by
  induction segs generalizing m with
  | nil => simp [parseRegeditLoop, segLookup]
  | cons s rest ih =>
    by_cases hs : s = []
    · simp [parseRegeditLoop, hs, ih]
    · simp only [parseRegeditLoop, hs, if_false, ih, storePair_eq, mapGet_mapSet]
      have hf : (s :: rest).filter (fun s => s ≠ []) = s :: rest.filter (fun s => s ≠ []) := by
        simp [List.filter_cons, hs]
      rw [hf, segLookup_cons]
      cases segLookup (rest.filter (fun s => s ≠ [])) k <;>
        by_cases hk : segKey s = k <;> simp [hk]

theorem writeConfLoop_lookup (segs : List (List Char)) (m : List (String × String))
    (k : String) :
    mapGet (writeConfLoop m segs) k
      = match segLookup ((segs.map TrimSpace).filter (fun s => s ≠ [])) k with
        | some v => some v
        | none => mapGet m k := by
  induction segs generalizing m with
  | nil => simp [writeConfLoop, segLookup]
  | cons s rest ih =>
    by_cases hs : TrimSpace s = []
    · simp [writeConfLoop, hs, ih]
    · simp only [writeConfLoop, hs, if_false, ih, storePair_eq, mapGet_mapSet]
      have hf : ((s :: rest).map TrimSpace).filter (fun s => s ≠ [])
          = TrimSpace s :: (rest.map TrimSpace).filter (fun s => s ≠ []) := by
        simp [List.filter_cons, hs]
      rw [hf, segLookup_cons]
      cases segLookup ((rest.map TrimSpace).filter (fun s => s ≠ [])) k <;>
        by_cases hk : segKey (TrimSpace s) = k <;> simp [hk]

/-- The key and the value of a segment `k=v` whose `k` has no `=`, and of a segment
without `=`. -/
theorem segKey_segValue (k v s : List Char) (hk : '=' ∉ k) (hs : '=' ∉ s) :
    segKey (k ++ '=' :: v) = ⟨k⟩ ∧ segValue (k ++ '=' :: v) = ⟨v⟩ ∧
      segKey s = "" ∧ segValue s = ⟨s⟩ := by
  have hall : ∀ x ∈ k, (fun c : Char => decide (c ≠ '=')) x = true := by
    intro x hx
    have : x ≠ '=' := fun hc => hk (hc ▸ hx)
    simpa using this
  have ht : (k ++ '=' :: v).takeWhile (fun c => c ≠ '=') = k := by
    rw [List.takeWhile_append_of_pos hall]
    simp
  have hd : (k ++ '=' :: v).dropWhile (fun c => c ≠ '=') = '=' :: v := by
    rw [List.dropWhile_append_of_pos hall]
    simp
  have hm : '=' ∈ k ++ '=' :: v := by simp
  refine ⟨?_, ?_, ?_, ?_⟩
  · simp only [segKey, hm, if_true, ht]
  · simp only [segValue, hm, if_true, hd]
    rfl
  · simp only [segKey, hs, if_false]
  · simp only [segValue, hs, if_false]

/-- C2 as stated fails.  For the static proxy `http=a;` the split on `;` has the empty
segment after the last `;`, which read literally is stored under the empty key; both
`parseRegedit` and the main path of `writeConf` skip it and have no empty key.  For
`http=a; https=b` the second segment read literally has the key ` https` with a leading
blank; the main path of `writeConf` trims it and stores the key `https`. -/
theorem Protocols_not_literal_split :
    literalLookup "http=a;" "" = some "" ∧
      mapGet (parseRegedit ⟨"http=a;", "", 1, ""⟩).Static.Protocols "" = none ∧
      mapGet (writeConf ⟨none, some ⟨3, some "http=a;", none⟩,
        ⟨"", "", 0, ""⟩⟩).Static.Protocols "" = none ∧
      literalLookup "http=a; https=b" " https" = some "b" ∧
      literalLookup "http=a; https=b" "https" = none ∧
      mapGet (writeConf ⟨none, some ⟨3, some "http=a; https=b", none⟩,
        ⟨"", "", 0, ""⟩⟩).Static.Protocols " https" = none ∧
      mapGet (writeConf ⟨none, some ⟨3, some "http=a; https=b", none⟩,
        ⟨"", "", 0, ""⟩⟩).Static.Protocols "https" = some "b" := by
  decide

/-- C2, amended: the protocols mapping is the one obtained by splitting the static proxy
on `;`, dropping the empty segments (on the main path of `writeConf` after trimming the
white space around each segment; in `parseRegedit` untrimmed), and storing each remaining
segment by its first `=`: `k=v` under `k` with value `v`, a segment without `=` under the
empty key; of several segments with one key the last one counts, and a key no segment
has is absent. -/
theorem Protocols_lookup (p : ProbeOutcome) (r : regeditValues) (k : String) :
    ((working p).proxy ≠ "" →
      mapGet (writeConf p).Static.Protocols k
        = segLookup
            (((Split ';' (working p).proxy.data).map TrimSpace).filter (fun s => s ≠ [])) k) ∧
    mapGet (parseRegedit r).Static.Protocols k
        = segLookup ((Split ';' r.ProxyServer.data).filter (fun s => s ≠ [])) k ∧
    (∀ key value seg : List Char, '=' ∉ key → '=' ∉ seg →
      segKey (key ++ '=' :: value) = ⟨key⟩ ∧ segValue (key ++ '=' :: value) = ⟨value⟩ ∧
        segKey seg = "" ∧ segValue seg = ⟨seg⟩) := by
  refine ⟨?_, ?_, fun key value seg hk hs => segKey_segValue key value seg hk hs⟩
  · intro hp
    rw [writeConf_Static_active p hp]
    simp only [writeConfLoop_lookup, mapGet]
    cases segLookup
      (((Split ';' (working p).proxy.data).map TrimSpace).filter (fun s => s ≠ [])) k <;> rfl
  · simp only [parseRegedit, parseRegeditLoop_lookup, mapGet]
    cases segLookup ((Split ';' r.ProxyServer.data).filter (fun s => s ≠ [])) k <;> rfl

/-- C2, amended, at the two examples of the specification: the static proxy
`http=1.2.3.4:80;https=1.2.3.4:443` on the main path and the bare `1.2.3.4:80` in the
registry record. -/
theorem Protocols_lookup_witness :
    (writeConf ⟨none, some ⟨3, some "http=1.2.3.4:80;https=1.2.3.4:443", none⟩,
        ⟨"", "", 0, ""⟩⟩).Static.Protocols
        = [("http", "1.2.3.4:80"), ("https", "1.2.3.4:443")] ∧
      (parseRegedit ⟨"1.2.3.4:80", "", 1, ""⟩).Static.Protocols = [("", "1.2.3.4:80")] ∧
      mapGet (writeConf ⟨none, some ⟨3, some "http=1.2.3.4:80;https=1.2.3.4:443", none⟩,
        ⟨"", "", 0, ""⟩⟩).Static.Protocols "https" = some "1.2.3.4:443" := by
  refine ⟨by decide, by decide, ?_⟩
  rw [(Protocols_lookup
    ⟨none, some ⟨3, some "http=1.2.3.4:80;https=1.2.3.4:443", none⟩, ⟨"", "", 0, ""⟩⟩
    ⟨"", "", 0, ""⟩ "https").1 (by decide)]
  decide

/-! ## The model of `strings.Split` -/

/-- The model of `strings.Split` always returns at least one segment. -/
theorem Split_ne_nil (sep : Char) (s : List Char) : Split sep s ≠ [] := by
  cases s with
  | nil => simp [Split]
  | cons c cs =>
    by_cases h : c = sep
    · simp [Split, h]
    · cases hs : Split sep cs <;> simp [Split, h, hs]

/-- No segment of the split contains the separator, and joining the segments with the
separator gives the text back. -/
theorem Split_spec (sep : Char) (s : List Char) :
    (∀ seg ∈ Split sep s, sep ∉ seg) ∧ List.intercalate [sep] (Split sep s) = s := by
  induction s with
  | nil => simp [Split, List.intercalate]
  | cons c cs ih =>
    by_cases h : c = sep
    · subst h
      cases hs : Split c cs with
      | nil => exact absurd hs (Split_ne_nil _ _)
      | cons seg rest =>
        rw [hs] at ih
        refine ⟨?_, ?_⟩
        · intro x hx
          simp only [Split, if_true, hs, List.mem_cons] at hx
          rcases hx with hx | hx
          · subst hx; simp
          · exact ih.1 x (by simpa using hx)
        · have h2 := ih.2
          simp only [Split, if_true, hs]
          simp only [List.intercalate, List.intersperse, List.flatten] at h2 ⊢
          simpa using h2
    · cases hs : Split sep cs with
      | nil => exact absurd hs (Split_ne_nil _ _)
      | cons seg rest =>
        rw [hs] at ih
        refine ⟨?_, ?_⟩
        · intro x hx
          simp only [Split, h, if_false, hs, List.mem_cons] at hx
          rcases hx with hx | hx
          · subst hx
            have := ih.1 seg (by simp)
            simp [this, Ne.symm h]
          · exact ih.1 x (by simp [hx])
        · have h2 := ih.2
          simp only [Split, h, if_false, hs]
          cases rest with
          | nil =>
            simp only [List.intercalate, List.intersperse, List.flatten] at h2 ⊢
            simpa using h2
          | cons r rs =>
            simp only [List.intercalate, List.intersperse, List.flatten] at h2 ⊢
            simpa using h2

end Ieproxy
